import Mathlib

/-!
Shallow embedding of `src/jira_user_cleanup.py` (class `JiraUserManager` and
`main`), together with proofs of the specification claims about it.

Modelling conventions:
* Timestamps are integer microseconds since the Unix epoch, in UTC.
  `datetime` values compare by instant, which the integer order reflects.
* Remote interactions are parameters: the result of `jira.search_users`
  is an `Except` value (exception or user list), and the per-user
  `jira.user` call is a function from username to a `LookupOutcome`.
* Logging is modelled as a list of structured `LogEvent`s, one constructor
  per `logger.*` call site in the source, carrying the interpolated data.
* `datetime.now(timezone.utc)` is called once for the cutoff (line 72) and
  once more per inactive record (line 88); the model takes the first read
  `now0` and a function `laterNow` giving the read made for the record of
  the user at each index of the active-user list.
-/

namespace JiraUserCleanup

/-- Microseconds since the Unix epoch, UTC. -/
abbrev Micros := Int

/-- Microseconds in one day; `timedelta(days=k)` is `k * microsPerDay`. -/
def microsPerDay : Micros := 86400000000

/-- Python `timedelta.days`: floor division of the span by one day.
`Int` division (`ediv`) is floor division for a positive divisor, matching
Python `//` semantics used by `timedelta.days`. -/
def timedeltaDays (span : Micros) : Int := span / microsPerDay

/-- Numeric value of a digit character. -/
def digitVal (c : Char) : Nat := c.toNat - 48

/-- Parse exactly `n` digits into a number (strptime directives with a
fixed width, such as a four-digit `%Y`). -/
def parseFixed : Nat → Nat → List Char → Option (Nat × List Char)
  | 0, acc, cs => some (acc, cs)
  | n+1, acc, c :: cs =>
    if c.isDigit then parseFixed n (acc * 10 + digitVal c) cs else none
  | _+1, _, [] => none

/-- Parse one or two digits greedily (strptime directives `%m`, `%d`,
`%H`, `%M`, `%S` accept one- or two-digit values). -/
def parseUpTo2 : List Char → Option (Nat × List Char)
  | [] => none
  | [c] => if c.isDigit then some (digitVal c, []) else none
  | c :: d :: cs =>
    if c.isDigit then
      if d.isDigit then some (digitVal c * 10 + digitVal d, cs)
      else some (digitVal c, d :: cs)
    else none

/-- Consume one expected literal character of the format string. -/
def expectChar (c : Char) : List Char → Option (List Char)
  | d :: cs => if d = c then some cs else none
  | [] => none

/-- Greedily consume up to six digits for `%f`, returning how many digits
were read, their value, and the rest of the input. -/
def parseFracDigits : Nat → Nat → Nat → List Char → Nat × Nat × List Char
  | 0, k, acc, cs => (k, acc, cs)
  | _+1, k, acc, [] => (k, acc, [])
  | fuel+1, k, acc, c :: cs =>
    if c.isDigit then parseFracDigits fuel (k+1) (acc * 10 + digitVal c) cs
    else (k, acc, c :: cs)

/-- Drop one optional colon between the hour and minute digits of a UTC
offset (`%z` accepts both `+HHMM` and `+HH:MM`). -/
def dropOptColon : List Char → List Char
  | ':' :: r => r
  | r => r

/-- Parse the `%z` directive: `Z`, or a sign, two hour digits, an optional
colon, and two minute digits; the offset must be under 24 hours (the
`datetime.timezone` bound). Returns the offset in seconds east of UTC.
The rarely used seconds-in-offset form is not modelled. -/
def parseOffset : List Char → Option (Int × List Char)
  | [] => none
  | c :: cs =>
    if c = 'Z' then some (0, cs)
    else if c = '+' || c = '-' then
      match parseFixed 2 0 cs with
      | none => none
      | some (hh, rest) =>
        match parseFixed 2 0 (dropOptColon rest) with
        | none => none
        | some (mm, rest2) =>
          let total : Int := (hh : Int) * 3600 + (mm : Int) * 60
          if total < 86400 then
            some (if c = '-' then -total else total, rest2)
          else none
    else none

/-- Leap-year rule of the proleptic Gregorian calendar used by
`datetime`. -/
def isLeapYear (y : Nat) : Bool := decide ((y % 4 = 0 ∧ y % 100 ≠ 0) ∨ y % 400 = 0)

/-- Length of a month, as validated by the `datetime` constructor. -/
def daysInMonth (y m : Nat) : Nat :=
  if m = 2 then (if isLeapYear y then 29 else 28)
  else if m = 4 ∨ m = 6 ∨ m = 9 ∨ m = 11 then 30
  else 31

/-- Field validation performed by the `datetime` constructor
(`MINYEAR = 1`, `MAXYEAR = 9999`, day within the month). -/
def validDate (y m d : Nat) : Bool :=
  decide (1 ≤ y ∧ y ≤ 9999 ∧ 1 ≤ m ∧ m ≤ 12 ∧ 1 ≤ d ∧ d ≤ daysInMonth y m)

/-- Days from 1970-01-01 to year `y`, month `m`, day `d` in the proleptic
Gregorian calendar (civil-from-days inverse, era decomposition). -/
def daysFromCivil (y m d : Nat) : Int :=
  let yy : Int := if m ≤ 2 then (y : Int) - 1 else (y : Int)
  let era := yy / 400
  let yoe := yy - era * 400
  let mp : Int := ((m : Int) + 9) % 12
  let doy := (153 * mp + 2) / 5 + (d : Int) - 1
  let doe := yoe * 365 + yoe / 4 - yoe / 100 + doy
  era * 146097 + doe - 719468

/-- Model of `datetime.strptime(s, "%Y-%m-%dT%H:%M:%S.%f%z")` followed by
conversion to an absolute instant: four-digit year, one-or-two-digit
month/day/hour/minute/second with literal separators, one to six
fractional-second digits, and a UTC offset; the whole input must be
consumed. A `ValueError` (any deviation from the format, or a field out
of range) is `none`. -/
def strptime (s : String) : Option Micros := do
  let cs0 := s.toList
  let (y, cs1) ← parseFixed 4 0 cs0
  let cs2 ← expectChar '-' cs1
  let (m, cs3) ← parseUpTo2 cs2
  let cs4 ← expectChar '-' cs3
  let (d, cs5) ← parseUpTo2 cs4
  let cs6 ← expectChar 'T' cs5
  let (hh, cs7) ← parseUpTo2 cs6
  let cs8 ← expectChar ':' cs7
  let (mi, cs9) ← parseUpTo2 cs8
  let cs10 ← expectChar ':' cs9
  let (ss, cs11) ← parseUpTo2 cs10
  let cs12 ← expectChar '.' cs11
  let (k, frac, cs13) := parseFracDigits 6 0 0 cs12
  if k = 0 then none else
  let micros : Nat := frac * 10 ^ (6 - k)
  let (off, cs14) ← parseOffset cs13
  if cs14.isEmpty && validDate y m d &&
      decide (hh ≤ 23) && decide (mi ≤ 59) && decide (ss ≤ 59) then
    some ((daysFromCivil y m d * 86400 + (hh : Int) * 3600 + (mi : Int) * 60
      + (ss : Int)) * 1000000 + (micros : Int) - off * 1000000)
  else none

/-- A user object as returned by `jira.search_users`: the fields the
program reads are `name` and `active`. -/
structure UserAccount where
  name : String
  active : Bool
deriving Repr, DecidableEq

/-- Derived record built at lines 85-89 for each inactive user. -/
structure InactivityRecord where
  username : String
  last_login : Micros
  days_inactive : Int
deriving Repr, DecidableEq

/-- Outcome of the per-user `jira.user(username)` call: the call may raise
(caught at line 49), or return a raw record whose `lastLoginTime` field is
absent or a string. -/
inductive LookupOutcome where
  | queryError (msg : String)
  | found (lastLoginTime : Option String)
deriving Repr, DecidableEq

/-- Outcome of the remote `jira.deactivate_user(username)` call. -/
inductive DeactivateOutcome where
  | success
  | failure (msg : String)
deriving Repr, DecidableEq

/-- Severity levels of the `logging` module used by the program. -/
inductive LogLevel where
  | info
  | warning
  | error
deriving Repr, DecidableEq

/-- One constructor per `logger.*` call site in the source, carrying the
data interpolated into the message. -/
inductive LogEvent where
  /-- line 34: `Found {n} active users` -/
  | foundActiveUsers (n : Nat)
  /-- line 37: `Error getting active users: ...` -/
  | listingError (msg : String)
  /-- line 50: `Error getting last login for user {username}: ...` -/
  | lookupError (username : String)
  /-- line 58: `Successfully deactivated user: {username}` -/
  | deactivatedUser (username : String)
  /-- line 61: `Error deactivating user {username}: ...` -/
  | deactivateError (username : String)
  /-- line 80: `Could not determine last login for user: {username}` -/
  | couldNotDetermine (username : String)
  /-- line 84: `Inactive user found - Username: ..., Last login: ...` -/
  | inactiveUserFound (username : String) (lastLogin : Micros)
  /-- line 92: `Inactive Users Summary:` -/
  | summaryHeader
  /-- line 93: `Total active users checked: {n}` -/
  | totalChecked (n : Nat)
  /-- line 94: `Total inactive users found: {n}` -/
  | totalInactive (n : Nat)
  /-- line 97: `Detailed list of inactive users:` -/
  | detailHeader
  /-- line 99: `Username: ... Last login: ... ({d} days ago)` -/
  | detailLine (username : String) (lastLogin : Micros) (daysInactive : Int)
  /-- line 107: `Missing required environment variables. Please set JIRA_URL and JIRA_PAT` -/
  | missingConfig
  /-- line 118: `An error occurred: ...` -/
  | mainError (msg : String)
deriving Repr, DecidableEq

/-- Level each call site logs at. -/
def LogEvent.level : LogEvent → LogLevel
  | .foundActiveUsers _ => .info
  | .listingError _ => .error
  | .lookupError _ => .error
  | .deactivatedUser _ => .info
  | .deactivateError _ => .error
  | .couldNotDetermine _ => .warning
  | .inactiveUserFound .. => .info
  | .summaryHeader => .info
  | .totalChecked _ => .info
  | .totalInactive _ => .info
  | .detailHeader => .info
  | .detailLine .. => .info
  | .missingConfig => .error
  | .mainError _ => .error

/-- Lines 28-38, `get_all_active_users`: on success, filter the returned
users to `user.active` and log the count; on any exception, log an error
and re-raise. -/
def get_all_active_users (searchResult : Except String (List UserAccount)) :
    Except String (List UserAccount) × List LogEvent :=
  match searchResult with
  | .error e => (.error e, [.listingError e])
  | .ok users =>
    let active_users := users.filter (·.active)
    (.ok active_users, [.foundActiveUsers active_users.length])

/-- Lines 40-51, `get_user_last_login`: on a query exception, log an error
and return `None`; if the raw record has no (or a falsy, i.e. empty)
`lastLoginTime`, return `None`; otherwise `strptime` the string, a
`ValueError` being caught by the same handler. -/
def get_user_last_login (username : String) (outcome : LookupOutcome) :
    Option Micros × List LogEvent :=
  match outcome with
  | .queryError _ => (none, [.lookupError username])
  | .found none => (none, [])
  | .found (some s) =>
    if s = "" then (none, [])
    else
      match strptime s with
      | some t => (some t, [])
      | none => (none, [.lookupError username])

/-- Lines 53-62, `deactivate_user`: returns `True` and logs on success;
catches any exception, logs an error, and returns `False`. -/
def deactivate_user (username : String) (outcome : DeactivateOutcome) :
    Bool × List LogEvent :=
  match outcome with
  | .success => (true, [.deactivatedUser username])
  | .failure _ => (false, [.deactivateError username])

/-- Lines 76-89, the classification loop of `cleanup_inactive_users`:
fetch each user's last login; `None` logs a warning and continues;
a known login strictly before the cutoff appends an `InactivityRecord`
whose `days_inactive` uses a fresh `datetime.now` read (`laterNow i` for
the user at index `i` of the active list). -/
def classifyLoop (fetch : String → LookupOutcome) (cutoff : Micros)
    (laterNow : Nat → Micros) :
    Nat → List UserAccount → List InactivityRecord × List LogEvent
  | _, [] => ([], [])
  | i, u :: rest =>
    let fetched := get_user_last_login u.name (fetch u.name)
    let tail := classifyLoop fetch cutoff laterNow (i+1) rest
    match fetched.1 with
    | none => (tail.1, fetched.2 ++ [.couldNotDetermine u.name] ++ tail.2)
    | some last_login =>
      if last_login < cutoff then
        ({ username := u.name, last_login := last_login,
           days_inactive := timedeltaDays (laterNow i - last_login) } :: tail.1,
         fetched.2 ++ [.inactiveUserFound u.name last_login] ++ tail.2)
      else (tail.1, fetched.2 ++ tail.2)

/-- Stable insertion for a days-descending order: the record being
inserted comes from earlier in the input than everything already placed,
so it goes before the first element whose key is not larger. -/
def insertByDaysDesc (r : InactivityRecord) :
    List InactivityRecord → List InactivityRecord
  | [] => [r]
  | x :: xs =>
    if r.days_inactive < x.days_inactive then x :: insertByDaysDesc r xs
    else r :: x :: xs

/-- Line 98: Python `sorted(inactive_users, key=lambda x: x['days_inactive'],
reverse=True)`. `sorted` is a stable sort, and with `reverse=True` equal
keys still keep their original order; a stable sort under a total key
preorder is extensionally unique, so this stable descending insertion
sort computes exactly the same list (sortedness, permutation and
stability are proved below). -/
def sortInactive (recs : List InactivityRecord) : List InactivityRecord :=
  recs.foldr insertByDaysDesc []

/-- Lines 64-99, `cleanup_inactive_users`: compute the cutoff from the
first `now` read, list the active users (a listing exception propagates),
classify each one, then log the summary and — when any inactive user was
found — the detailed listing sorted by `days_inactive` descending. -/
def cleanup_inactive_users (searchResult : Except String (List UserAccount))
    (fetch : String → LookupOutcome) (now0 : Micros) (laterNow : Nat → Micros)
    (days_threshold : Int) :
    Except String (List InactivityRecord) × List LogEvent :=
  let cutoff_date := now0 - days_threshold * microsPerDay
  let listed := get_all_active_users searchResult
  match listed.1 with
  | .error e => (.error e, listed.2)
  | .ok active_users =>
    let res := classifyLoop fetch cutoff_date laterNow 0 active_users
    let inactive_users := res.1
    let summary : List LogEvent :=
      [.summaryHeader, .totalChecked active_users.length,
       .totalInactive inactive_users.length]
    let detail : List LogEvent :=
      if inactive_users.isEmpty then []
      else .detailHeader ::
        (sortInactive inactive_users).map fun r =>
          .detailLine r.username r.last_login r.days_inactive
    (.ok inactive_users, listed.2 ++ res.2 ++ summary ++ detail)

/-- Modelled from the spec: the `deactivateMode(records)` batch loop is
absent from `src` (the reference variant is report-only and never invokes
`deactivate_user` from the main flow); per §4.1, for each record invoke
`deactivateUser(username) -> bool`, on failure log and continue without
aborting the batch, and accumulate a final count of successful
deactivations. The per-call behaviour is the source `deactivate_user`. -/
def deactivateMode (deact : String → DeactivateOutcome) :
    List InactivityRecord → Nat × List LogEvent
  | [] => (0, [])
  | r :: rest =>
    let attempt := deactivate_user r.username (deact r.username)
    let tail := deactivateMode deact rest
    ((if attempt.1 then 1 else 0) + tail.1, attempt.2 ++ tail.2)

/-- Python truthiness of an `os.getenv` result: `None` and the empty
string are falsy, as tested by `not all([jira_url, jira_pat])`. -/
def pyTruthy (s : Option String) : Bool := !((s.getD "") == "")

/-- Observable outcome of one `main()` run: the log events and how many
remote-service operations were performed (client construction, the user
search, and one `jira.user` call per active user). -/
structure MainOutput where
  events : List LogEvent
  remoteCalls : Nat
deriving Repr, DecidableEq

/-- Remote operations performed inside `cleanup_inactive_users`: the
search itself, plus one per-user lookup for each active user. -/
def cleanupRemoteCalls (searchResult : Except String (List UserAccount)) : Nat :=
  match searchResult with
  | .error _ => 1
  | .ok users => 1 + (users.filter (·.active)).length

/-- Lines 101-118, `main`: read `JIRA_URL` and `JIRA_PAT` from the
environment; if either is falsy, log the missing-configuration error and
return before any remote call; otherwise construct the client and run the
cleanup, logging any propagated exception at the top level. -/
def mainRun (env : String → Option String)
    (searchResult : Except String (List UserAccount))
    (fetch : String → LookupOutcome) (now0 : Micros)
    (laterNow : Nat → Micros) : MainOutput :=
  let jira_url := env "JIRA_URL"
  let jira_pat := env "JIRA_PAT"
  if !(pyTruthy jira_url && pyTruthy jira_pat) then
    { events := [.missingConfig], remoteCalls := 0 }
  else
    match cleanup_inactive_users searchResult fetch now0 laterNow 60 with
    | (.ok _, evs) =>
      { events := evs, remoteCalls := 1 + cleanupRemoteCalls searchResult }
    | (.error e, evs) =>
      { events := evs ++ [.mainError e],
        remoteCalls := 1 + cleanupRemoteCalls searchResult }

/-- Usernames that a batch of deactivation events touched (success or
failure). -/
def deactTargets (evs : List LogEvent) : List String :=
  evs.filterMap fun e =>
    match e with
    | .deactivatedUser u => some u
    | .deactivateError u => some u
    | _ => none

/-- Number of per-user undetermined-last-login warnings in an event
list. -/
def undeterminedWarnings (evs : List LogEvent) : Nat :=
  (evs.filter fun e =>
    match e with
    | .couldNotDetermine _ => true
    | _ => false).length

/-- Every aggregate count the program ever logs: the active-user count of
line 34 and the two summary totals of lines 93-94. -/
def reportedCounts (evs : List LogEvent) : List Nat :=
  evs.filterMap fun e =>
    match e with
    | .foundActiveUsers n => some n
    | .totalChecked n => some n
    | .totalInactive n => some n
    | _ => none

/-- The detail lines of the sorted report section (line 99). -/
def detailLines (evs : List LogEvent) : List LogEvent :=
  evs.filter fun e =>
    match e with
    | .detailLine .. => true
    | _ => false

instance : DecidableEq (Except String (List InactivityRecord)) := fun a b =>
  match a, b with
  | .error x, .error y =>
    if h : x = y then .isTrue (by rw [h]) else .isFalse (by simp [h])
  | .ok x, .ok y =>
    if h : x = y then .isTrue (by rw [h]) else .isFalse (by simp [h])
  | .error _, .ok _ => .isFalse (by simp)
  | .ok _, .error _ => .isFalse (by simp)

/-! ### Concrete runs used to instantiate the theorems

A reference run: now is 2026-01-01T00:00:00Z; user A logged in 10 days
ago, user B 90 days ago, user C has no recorded login; threshold 60. -/

/-- Three active users A, B, C. -/
def sampleUsers : List UserAccount := [⟨"A", true⟩, ⟨"B", true⟩, ⟨"C", true⟩]

/-- Raw per-user lookup results for the reference run. -/
def sampleFetch : String → LookupOutcome := fun n =>
  if n = "A" then .found (some "2025-12-22T00:00:00.000000+00:00")
  else if n = "B" then .found (some "2025-10-03T00:00:00.000000+00:00")
  else .found none

/-- 2026-01-01T00:00:00Z in epoch microseconds. -/
def sampleNow : Micros := 1767225600000000

/-- 2025-12-22T00:00:00Z, ten days before `sampleNow`. -/
def sampleLoginA : Micros := 1766361600000000

/-- 2025-10-03T00:00:00Z, ninety days before `sampleNow`. -/
def sampleLoginB : Micros := 1759449600000000

/-- A run with two users of unknown last login, one inactive user and one
recently active user (used to inspect the logged counts). -/
def quadUsers : List UserAccount :=
  [⟨"u1", true⟩, ⟨"u2", true⟩, ⟨"u3", true⟩, ⟨"u4", true⟩]

/-- Lookups for `quadUsers`: u1 and u2 unknown, u3 long inactive, u4
recently active. -/
def quadFetch : String → LookupOutcome := fun n =>
  if n = "u3" then .found (some "2025-10-03T00:00:00.000000+00:00")
  else if n = "u4" then .found (some "2025-12-22T00:00:00.000000+00:00")
  else .found none

/-- Events logged by the `quadUsers` run at threshold 60. -/
def quadEvents : List LogEvent :=
  (cleanup_inactive_users (.ok quadUsers) quadFetch sampleNow
    (fun _ => sampleNow) 60).2

/-- Environment with only the access token set. -/
def envPatOnly : String → Option String :=
  fun k => if k = "JIRA_PAT" then some "token123" else none

/-- Environment with only the service URL set. -/
def envUrlOnly : String → Option String :=
  fun k => if k = "JIRA_URL" then some "https://jira.example.com" else none

/-- Three inactive records for exercising the deactivation batch. -/
def batchRecords : List InactivityRecord :=
  [⟨"x", 0, 100⟩, ⟨"y", 0, 90⟩, ⟨"z", 0, 80⟩]

/-- Deactivation outcomes where only the call for `y` fails. -/
def batchDeact : String → DeactivateOutcome :=
  fun n => if n = "y" then .failure "forbidden" else .success

/-- The single record classified in the reference run: B, 90 days. -/
def sampleRecords : List InactivityRecord := [⟨"B", sampleLoginB, 90⟩]

/-- The full event log of the reference run at threshold 60. -/
def sampleEvents : List LogEvent :=
  [.foundActiveUsers 3, .inactiveUserFound "B" sampleLoginB,
   .couldNotDetermine "C", .summaryHeader, .totalChecked 3, .totalInactive 1,
   .detailHeader, .detailLine "B" sampleLoginB 90]

/-- Users for the one-failing-lookup run: A and B as in the reference
run, F's lookup raises. -/
def triFailUsers : List UserAccount := [⟨"A", true⟩, ⟨"B", true⟩, ⟨"F", true⟩]

/-- Lookups for `triFailUsers`: F's per-user query raises. -/
def triFailFetch : String → LookupOutcome := fun n =>
  if n = "A" then .found (some "2025-12-22T00:00:00.000000+00:00")
  else if n = "B" then .found (some "2025-10-03T00:00:00.000000+00:00")
  else .queryError "boom"

/-- The record classified for u3 in the `quadUsers` run. -/
def quadRecord : InactivityRecord := ⟨"u3", sampleLoginB, 90⟩

/-- Environment with both required variables set. -/
def envBoth : String → Option String := fun k =>
  if k = "JIRA_URL" then some "https://jira.example.com"
  else if k = "JIRA_PAT" then some "token123"
  else none

/-! ### Helper lemmas about the classification loop -/

theorem microsPerDay_pos : (0 : Int) < microsPerDay := by decide

/-- Unfolding of `cleanup_inactive_users` on a successful listing. -/
theorem cleanup_ok_eq (users : List UserAccount) (fetch : String → LookupOutcome)
    (now0 : Micros) (laterNow : Nat → Micros) (T : Int) :
    cleanup_inactive_users (.ok users) fetch now0 laterNow T =
      (.ok (classifyLoop fetch (now0 - T * microsPerDay) laterNow 0
          (users.filter (·.active))).1,
       .foundActiveUsers (users.filter (·.active)).length ::
        ((classifyLoop fetch (now0 - T * microsPerDay) laterNow 0
            (users.filter (·.active))).2 ++
          [.summaryHeader, .totalChecked (users.filter (·.active)).length,
           .totalInactive (classifyLoop fetch (now0 - T * microsPerDay) laterNow 0
             (users.filter (·.active))).1.length] ++
          (if (classifyLoop fetch (now0 - T * microsPerDay) laterNow 0
              (users.filter (·.active))).1.isEmpty then []
           else .detailHeader ::
             (sortInactive (classifyLoop fetch (now0 - T * microsPerDay) laterNow 0
               (users.filter (·.active))).1).map fun r =>
               .detailLine r.username r.last_login r.days_inactive))) := rfl

/-- Unfolding of `cleanup_inactive_users` on a failed listing: the
exception is propagated and only the listing error is logged. -/
theorem cleanup_error_eq (e : String) (fetch : String → LookupOutcome)
    (now0 : Micros) (laterNow : Nat → Micros) (T : Int) :
    cleanup_inactive_users (.error e) fetch now0 laterNow T =
      (.error e, [.listingError e]) := rfl

/-- Every record produced by the classification loop comes from a listed
user at some index: its username is that user's name, its last login is
the successfully parsed lookup result, that login is strictly before the
cutoff, and its day count is the floor of the span to the `now` read made
for that record. -/
theorem mem_classifyLoop_fst (fetch : String → LookupOutcome) (cutoff : Micros)
    (laterNow : Nat → Micros) :
    ∀ (i : Nat) (users : List UserAccount) (r : InactivityRecord),
      r ∈ (classifyLoop fetch cutoff laterNow i users).1 →
      ∃ j, ∃ hj : j < users.length,
        r.username = (users.get ⟨j, hj⟩).name ∧
        (get_user_last_login (users.get ⟨j, hj⟩).name
            (fetch (users.get ⟨j, hj⟩).name)).1 = some r.last_login ∧
        r.last_login < cutoff ∧
        r.days_inactive = timedeltaDays (laterNow (i + j) - r.last_login) := by
  intro i users
  induction users generalizing i with
  | nil => intro r h; simp [classifyLoop] at h
  | cons u rest ih =>
    intro r h
    simp only [classifyLoop] at h
    cases hll : (get_user_last_login u.name (fetch u.name)).1 with
    | none =>
      rw [hll] at h
      dsimp only at h
      obtain ⟨j, hj, h1, h2, h3, h4⟩ := ih (i+1) r h
      refine ⟨j+1, Nat.succ_lt_succ hj, h1, h2, h3, ?_⟩
      have harith : i + 1 + j = i + (j + 1) := by omega
      rw [harith] at h4
      exact h4
    | some L =>
      rw [hll] at h
      dsimp only at h
      by_cases hlt : L < cutoff
      · rw [if_pos hlt] at h
        rcases List.mem_cons.mp h with rfl | h'
        · exact ⟨0, Nat.succ_pos _, rfl, by simpa using hll, hlt, by simp⟩
        · obtain ⟨j, hj, h1, h2, h3, h4⟩ := ih (i+1) r h'
          refine ⟨j+1, Nat.succ_lt_succ hj, h1, h2, h3, ?_⟩
          have harith : i + 1 + j = i + (j + 1) := by omega
          rw [harith] at h4
          exact h4
      · rw [if_neg hlt] at h
        obtain ⟨j, hj, h1, h2, h3, h4⟩ := ih (i+1) r h
        refine ⟨j+1, Nat.succ_lt_succ hj, h1, h2, h3, ?_⟩
        have harith : i + 1 + j = i + (j + 1) := by omega
        rw [harith] at h4
        exact h4

/-- Converse direction: an active-listed user whose known last login is
strictly before the cutoff contributes a record bearing its name. -/
theorem classifyLoop_mem_of_lt (fetch : String → LookupOutcome) (cutoff : Micros)
    (laterNow : Nat → Micros) :
    ∀ (i : Nat) (users : List UserAccount) (u : UserAccount) (L : Micros),
      u ∈ users →
      (get_user_last_login u.name (fetch u.name)).1 = some L →
      L < cutoff →
      ∃ r ∈ (classifyLoop fetch cutoff laterNow i users).1, r.username = u.name := by
  intro i users
  induction users generalizing i with
  | nil => intro u L h; simp at h
  | cons v rest ih =>
    intro u L hu hL hlt
    simp only [classifyLoop]
    cases hll : (get_user_last_login v.name (fetch v.name)).1 with
    | none =>
      dsimp only
      rcases List.mem_cons.mp hu with rfl | hmem
      · rw [hL] at hll; exact Option.noConfusion hll
      · obtain ⟨r, hr, he⟩ := ih (i+1) u L hmem hL hlt
        exact ⟨r, hr, he⟩
    | some L2 =>
      dsimp only
      by_cases h2 : L2 < cutoff
      · rw [if_pos h2]
        rcases List.mem_cons.mp hu with rfl | hmem
        · exact ⟨_, List.mem_cons_self _ _, rfl⟩
        · obtain ⟨r, hr, he⟩ := ih (i+1) u L hmem hL hlt
          exact ⟨r, List.mem_cons_of_mem _ hr, he⟩
      · rw [if_neg h2]
        rcases List.mem_cons.mp hu with rfl | hmem
        · rw [hL] at hll
          cases hll; exact absurd hlt h2
        · exact ih (i+1) u L hmem hL hlt

/-- Distinct names identify users: in a list whose mapped names are
nodup, two members with the same name are the same member. -/
theorem eq_of_name_eq (users : List UserAccount) (u v : UserAccount)
    (hnd : (users.map (·.name)).Nodup) (hu : u ∈ users) (hv : v ∈ users)
    (h : u.name = v.name) : u = v :=
  List.inj_on_of_nodup_map hnd hu hv h

/-- A user every occurrence of whose name yields an unknown last login
contributes no record. -/
theorem classifyLoop_unknown_not_mem (fetch : String → LookupOutcome)
    (cutoff : Micros) (laterNow : Nat → Micros) (i : Nat)
    (users : List UserAccount) (n : String)
    (h : ∀ u ∈ users, u.name = n → (get_user_last_login u.name (fetch u.name)).1 = none) :
    ∀ r ∈ (classifyLoop fetch cutoff laterNow i users).1, r.username ≠ n := by
  intro r hr hrn
  obtain ⟨j, hj, h1, h2, _, _⟩ := mem_classifyLoop_fst fetch cutoff laterNow i users r hr
  have hmem := List.get_mem users j hj
  have hnone := h _ hmem (by rw [← h1, hrn])
  rw [hnone] at h2
  exact Option.noConfusion h2

/-- The classification loop only ever logs lookup errors, per-user
undetermined warnings, and inactive-user-found lines. -/
theorem classifyLoop_events_shape (fetch : String → LookupOutcome)
    (cutoff : Micros) (laterNow : Nat → Micros) :
    ∀ (i : Nat) (users : List UserAccount) (e : LogEvent),
      e ∈ (classifyLoop fetch cutoff laterNow i users).2 →
      (∃ n, e = .lookupError n) ∨ (∃ n, e = .couldNotDetermine n) ∨
        (∃ n t, e = .inactiveUserFound n t) := by
  intro i users
  induction users generalizing i with
  | nil => intro e he; simp [classifyLoop] at he
  | cons u rest ih =>
    intro e he
    have hfetched : ∀ e ∈ (get_user_last_login u.name (fetch u.name)).2,
        ∃ n, e = LogEvent.lookupError n := by
      intro e he
      rcases houtcome : fetch u.name with m | s
      · rw [houtcome] at he; simp [get_user_last_login] at he; exact ⟨_, he⟩
      · rw [houtcome] at he
        rcases s with _ | str
        · simp [get_user_last_login] at he
        · by_cases hstr : str = ""
          · simp [get_user_last_login, hstr] at he
          · rcases hparse : strptime str with _ | t
            · simp [get_user_last_login, hstr, hparse] at he; exact ⟨_, he⟩
            · simp [get_user_last_login, hstr, hparse] at he
    simp only [classifyLoop] at he
    cases hll : (get_user_last_login u.name (fetch u.name)).1 with
    | none =>
      rw [hll] at he
      dsimp only at he
      rcases List.mem_append.mp he with he' | he'
      · rcases List.mem_append.mp he' with he2 | he2
        · exact .inl (hfetched e he2)
        · rcases List.mem_singleton.mp he2 with rfl
          exact .inr (.inl ⟨u.name, rfl⟩)
      · exact ih (i+1) e he'
    | some L =>
      rw [hll] at he
      dsimp only at he
      by_cases hlt : L < cutoff
      · rw [if_pos hlt] at he
        rcases List.mem_append.mp he with he' | he'
        · rcases List.mem_append.mp he' with he2 | he2
          · exact .inl (hfetched e he2)
          · rcases List.mem_singleton.mp he2 with rfl
            exact .inr (.inr ⟨u.name, L, rfl⟩)
        · exact ih (i+1) e he'
      · rw [if_neg hlt] at he
        rcases List.mem_append.mp he with he' | he'
        · exact .inl (hfetched e he')
        · exact ih (i+1) e he'

/-- The classification loop alone mentions no deactivation. -/
theorem deactTargets_classifyLoop (fetch : String → LookupOutcome)
    (cutoff : Micros) (laterNow : Nat → Micros) (i : Nat)
    (users : List UserAccount) :
    deactTargets (classifyLoop fetch cutoff laterNow i users).2 = [] := by
  apply List.filterMap_eq_nil_iff.mpr
  intro e he
  rcases classifyLoop_events_shape fetch cutoff laterNow i users e he with
    ⟨n, rfl⟩ | ⟨n, rfl⟩ | ⟨n, t, rfl⟩ <;> rfl

/-- The classification loop emits no sorted-report detail lines. -/
theorem detailLines_classifyLoop (fetch : String → LookupOutcome)
    (cutoff : Micros) (laterNow : Nat → Micros) (i : Nat)
    (users : List UserAccount) :
    detailLines (classifyLoop fetch cutoff laterNow i users).2 = [] := by
  apply List.filter_eq_nil_iff.mpr
  intro e he
  rcases classifyLoop_events_shape fetch cutoff laterNow i users e he with
    ⟨n, rfl⟩ | ⟨n, rfl⟩ | ⟨n, t, rfl⟩ <;> simp

theorem undeterminedWarnings_append (a b : List LogEvent) :
    undeterminedWarnings (a ++ b) = undeterminedWarnings a + undeterminedWarnings b := by
  simp [undeterminedWarnings, List.filter_append]

/-- The per-user fetch itself logs no undetermined warning (that warning
is logged by the loop at line 80). -/
theorem undeterminedWarnings_get_user_last_login (username : String)
    (outcome : LookupOutcome) :
    undeterminedWarnings (get_user_last_login username outcome).2 = 0 := by
  rcases outcome with m | s
  · rfl
  · rcases s with _ | str
    · rfl
    · by_cases hstr : str = ""
      · simp [get_user_last_login, hstr]; rfl
      · rcases hparse : strptime str with _ | t <;>
          simp [get_user_last_login, hstr, hparse] <;> rfl

/-- One undetermined warning is logged per active user whose last login
could not be determined. -/
theorem undeterminedWarnings_classifyLoop (fetch : String → LookupOutcome)
    (cutoff : Micros) (laterNow : Nat → Micros) :
    ∀ (i : Nat) (users : List UserAccount),
      undeterminedWarnings (classifyLoop fetch cutoff laterNow i users).2 =
        (users.filter fun u =>
          ((get_user_last_login u.name (fetch u.name)).1).isNone).length := by
  intro i users
  induction users generalizing i with
  | nil => rfl
  | cons u rest ih =>
    simp only [classifyLoop]
    cases hll : (get_user_last_login u.name (fetch u.name)).1 with
    | none =>
      dsimp only
      rw [undeterminedWarnings_append, undeterminedWarnings_append,
        undeterminedWarnings_get_user_last_login, ih (i+1),
        List.filter_cons_of_pos (by simp [hll])]
      simp [undeterminedWarnings]
      omega
    | some L =>
      dsimp only
      by_cases hlt : L < cutoff
      · rw [if_pos hlt]
        dsimp only
        rw [undeterminedWarnings_append, undeterminedWarnings_append,
          undeterminedWarnings_get_user_last_login, ih (i+1),
          List.filter_cons_of_neg (by simp [hll])]
        simp [undeterminedWarnings]
      · rw [if_neg hlt]
        dsimp only
        rw [undeterminedWarnings_append,
          undeterminedWarnings_get_user_last_login, ih (i+1),
          List.filter_cons_of_neg (by simp [hll])]
        omega

/-- The per-user undetermined warning is indeed logged for each
undetermined active user. -/
theorem couldNotDetermine_mem_classifyLoop (fetch : String → LookupOutcome)
    (cutoff : Micros) (laterNow : Nat → Micros) :
    ∀ (i : Nat) (users : List UserAccount) (u : UserAccount),
      u ∈ users →
      (get_user_last_login u.name (fetch u.name)).1 = none →
      LogEvent.couldNotDetermine u.name ∈
        (classifyLoop fetch cutoff laterNow i users).2 := by
  intro i users
  induction users generalizing i with
  | nil => intro u h; simp at h
  | cons v rest ih =>
    intro u hu hnone
    simp only [classifyLoop]
    cases hll : (get_user_last_login v.name (fetch v.name)).1 with
    | none =>
      dsimp only
      rcases List.mem_cons.mp hu with rfl | hmem
      · exact List.mem_append.mpr (.inl (List.mem_append.mpr (.inr (by simp))))
      · exact List.mem_append.mpr (.inr (ih (i+1) u hmem hnone))
    | some L =>
      dsimp only
      rcases List.mem_cons.mp hu with rfl | hmem
      · rw [hnone] at hll; exact Option.noConfusion hll
      · by_cases hlt : L < cutoff
        · rw [if_pos hlt]
          exact List.mem_append.mpr (.inr (ih (i+1) u hmem hnone))
        · rw [if_neg hlt]
          exact List.mem_append.mpr (.inr (ih (i+1) u hmem hnone))

/-- Records are produced in the fetched order: the usernames of the
produced records form a sublist of the listed names. -/
theorem classifyLoop_usernames_sublist (fetch : String → LookupOutcome)
    (cutoff : Micros) (laterNow : Nat → Micros) :
    ∀ (i : Nat) (users : List UserAccount),
      List.Sublist ((classifyLoop fetch cutoff laterNow i users).1.map (·.username))
        (users.map (·.name)) := by
  intro i users
  induction users generalizing i with
  | nil => simp [classifyLoop]
  | cons u rest ih =>
    simp only [classifyLoop]
    cases hll : (get_user_last_login u.name (fetch u.name)).1 with
    | none =>
      dsimp only
      exact (ih (i+1)).cons u.name
    | some L =>
      dsimp only
      by_cases hlt : L < cutoff
      · rw [if_pos hlt]
        simpa using (ih (i+1)).cons₂ u.name
      · rw [if_neg hlt]
        exact (ih (i+1)).cons u.name

/-! ### Lemmas about the sorted report -/

/-- Inserting permutes: the result holds the new record and the old ones. -/
theorem insertByDaysDesc_perm (r : InactivityRecord) :
    ∀ l : List InactivityRecord, (insertByDaysDesc r l).Perm (r :: l) := by
  intro l
  induction l with
  | nil => exact List.Perm.refl _
  | cons y ys ih =>
    simp only [insertByDaysDesc]
    by_cases h : r.days_inactive < y.days_inactive
    · rw [if_pos h]
      exact (ih.cons y).trans (List.Perm.swap r y ys)
    · rw [if_neg h]

/-- Inserting preserves days-descending sortedness. -/
theorem insertByDaysDesc_pairwise (r : InactivityRecord)
    (l : List InactivityRecord)
    (h : l.Pairwise fun a b => b.days_inactive ≤ a.days_inactive) :
    (insertByDaysDesc r l).Pairwise
      fun a b => b.days_inactive ≤ a.days_inactive := by
  induction l with
  | nil => simp [insertByDaysDesc]
  | cons y ys ih =>
    rcases List.pairwise_cons.mp h with ⟨hy, hys⟩
    simp only [insertByDaysDesc]
    by_cases hlt : r.days_inactive < y.days_inactive
    · rw [if_pos hlt]
      apply List.pairwise_cons.mpr
      refine ⟨?_, ih hys⟩
      intro z hz
      rcases List.mem_cons.mp (((insertByDaysDesc_perm r ys).mem_iff).mp hz) with
        rfl | hz2
      · omega
      · exact hy z hz2
    · rw [if_neg hlt]
      apply List.pairwise_cons.mpr
      refine ⟨?_, h⟩
      intro z hz
      rcases List.mem_cons.mp hz with rfl | hz2
      · omega
      · have := hy z hz2; omega

/-- Inserting is stable: restricted to one key value, the result is the
new record (if it has that key) followed by the old ones in order. -/
theorem insertByDaysDesc_filter (r : InactivityRecord) (d : Int) :
    ∀ l : List InactivityRecord,
      (insertByDaysDesc r l).filter (fun x => decide (x.days_inactive = d)) =
        (r :: l).filter (fun x => decide (x.days_inactive = d)) := by
  intro l
  induction l with
  | nil => rfl
  | cons y ys ih =>
    simp only [insertByDaysDesc]
    by_cases hlt : r.days_inactive < y.days_inactive
    · rw [if_pos hlt]
      by_cases hy : y.days_inactive = d
      · have hr : ¬(r.days_inactive = d) := by omega
        simp [List.filter_cons, ih, hy, hr]
      · by_cases hr : r.days_inactive = d <;>
          simp [List.filter_cons, ih, hy, hr]
    · rw [if_neg hlt]

/-- The sorted listing is a permutation of the classified records. -/
theorem sortInactive_perm (recs : List InactivityRecord) :
    (sortInactive recs).Perm recs := by
  induction recs with
  | nil => exact List.Perm.refl _
  | cons a t ih =>
    exact (insertByDaysDesc_perm a (sortInactive t)).trans (ih.cons a)

/-- The sorted listing is ordered by `days_inactive` descending. -/
theorem sortInactive_sorted (recs : List InactivityRecord) :
    (sortInactive recs).Pairwise
      (fun a b => b.days_inactive ≤ a.days_inactive) := by
  induction recs with
  | nil => exact List.Pairwise.nil
  | cons a t ih => exact insertByDaysDesc_pairwise a (sortInactive t) ih

/-- Stability of the sorted listing: restricted to any one value of
`days_inactive`, the sorted listing coincides with the classification
order, which is the fetched order. -/
theorem sortInactive_filter_eq (recs : List InactivityRecord) (d : Int) :
    (sortInactive recs).filter (fun r => decide (r.days_inactive = d)) =
      recs.filter (fun r => decide (r.days_inactive = d)) := by
  induction recs with
  | nil => rfl
  | cons a t ih =>
    have h1 := insertByDaysDesc_filter a d (sortInactive t)
    show (insertByDaysDesc a (sortInactive t)).filter _ = _
    rw [h1]
    simp only [List.filter_cons, ih]

/-! ### Lemmas about the deactivation batch -/

/-- Exactly one deactivation event is logged per record, in batch order:
the batch never stops early. -/
theorem deactTargets_deactivateMode (deact : String → DeactivateOutcome) :
    ∀ recs : List InactivityRecord,
      deactTargets (deactivateMode deact recs).2 = recs.map (·.username) := by
  intro recs
  induction recs with
  | nil => rfl
  | cons r rest ih =>
    simp only [deactivateMode]
    rcases houtcome : deact r.username with _ | m <;>
      simp [deactTargets, deactivate_user, houtcome, List.filterMap_append] <;>
      simpa [deactTargets] using ih

/-- The final count accumulates exactly the successful calls. -/
theorem deactivateMode_count (deact : String → DeactivateOutcome) :
    ∀ recs : List InactivityRecord,
      (deactivateMode deact recs).1 =
        (recs.filter fun r => (deactivate_user r.username (deact r.username)).1).length := by
  intro recs
  induction recs with
  | nil => rfl
  | cons r rest ih =>
    simp only [deactivateMode]
    by_cases h : (deactivate_user r.username (deact r.username)).1
    · rw [if_pos h]
      simp only [List.filter_cons, h, if_true, List.length_cons, ih]
      omega
    · rw [if_neg h]
      have h2 : (deactivate_user r.username (deact r.username)).1 = false := by
        simpa using h
      simp [List.filter_cons, h2, ih]

/-- A failed call is logged and the batch continues. -/
theorem deactivateMode_failure_logged (deact : String → DeactivateOutcome) :
    ∀ recs : List InactivityRecord, ∀ r ∈ recs,
      (deactivate_user r.username (deact r.username)).1 = false →
      LogEvent.deactivateError r.username ∈ (deactivateMode deact recs).2 := by
  intro recs
  induction recs with
  | nil => intro r h; simp at h
  | cons q rest ih =>
    intro r hr hfail
    simp only [deactivateMode]
    rcases List.mem_cons.mp hr with rfl | hmem
    · rcases houtcome : deact r.username with _ | m
      · rw [houtcome] at hfail; simp [deactivate_user] at hfail
      · apply List.mem_append.mpr
        exact .inl (by simp [deactivate_user, houtcome])
    · exact List.mem_append.mpr (.inr (ih r hmem hfail))

/-! ### Lemmas about whole runs -/

theorem detailLines_append (a b : List LogEvent) :
    detailLines (a ++ b) = detailLines a ++ detailLines b := by
  simp [detailLines, List.filter_append]

theorem deactTargets_append (a b : List LogEvent) :
    deactTargets (a ++ b) = deactTargets a ++ deactTargets b := by
  simp [deactTargets, List.filterMap_append]

/-- A threshold of `T` days and a record-time clock read at or after the
cutoff computation put every strictly-pre-cutoff login at least `T` whole
days in the past. -/
theorem days_ge_of_lt_cutoff (T L now0 later : Int)
    (hlt : L < now0 - T * microsPerDay) (hlater : now0 ≤ later) :
    T ≤ timedeltaDays (later - L) := by
  unfold timedeltaDays
  rw [Int.le_ediv_iff_mul_le microsPerDay_pos]
  simp only [microsPerDay] at hlt ⊢
  omega

/-- With a missing (unset or empty) URL or token, `main` logs the fixed
missing-configuration error and returns with zero remote calls made. -/
theorem mainRun_missing (env : String → Option String)
    (sr : Except String (List UserAccount)) (fetch : String → LookupOutcome)
    (now0 : Micros) (laterNow : Nat → Micros)
    (h : pyTruthy (env "JIRA_URL") = false ∨ pyTruthy (env "JIRA_PAT") = false) :
    mainRun env sr fetch now0 laterNow = ⟨[.missingConfig], 0⟩ := by
  unfold mainRun
  rcases h with h | h <;> simp [h]

/-- With valid configuration and a failing listing, `main` logs exactly
the listing error and the top-level error, and nothing else. -/
theorem mainRun_valid_error (env : String → Option String) (e : String)
    (fetch : String → LookupOutcome) (now0 : Micros) (laterNow : Nat → Micros)
    (hurl : pyTruthy (env "JIRA_URL") = true)
    (hpat : pyTruthy (env "JIRA_PAT") = true) :
    mainRun env (.error e) fetch now0 laterNow =
      ⟨[.listingError e, .mainError e], 2⟩ := by
  unfold mainRun
  simp [hurl, hpat, cleanup_error_eq, cleanupRemoteCalls]

/-- With valid configuration and a successful listing, `main` emits the
cleanup events unchanged. -/
theorem mainRun_valid_ok (env : String → Option String)
    (users : List UserAccount) (fetch : String → LookupOutcome)
    (now0 : Micros) (laterNow : Nat → Micros)
    (hurl : pyTruthy (env "JIRA_URL") = true)
    (hpat : pyTruthy (env "JIRA_PAT") = true) :
    mainRun env (.ok users) fetch now0 laterNow =
      ⟨(cleanup_inactive_users (.ok users) fetch now0 laterNow 60).2,
       2 + (users.filter (·.active)).length⟩ := by
  unfold mainRun
  rw [cleanup_ok_eq]
  simp [hurl, hpat, cleanupRemoteCalls, cleanup_ok_eq]
  omega

/-- No event of a cleanup run mentions deactivation: the reference main
flow never invokes `deactivate_user`. -/
theorem deactTargets_cleanup (sr : Except String (List UserAccount))
    (fetch : String → LookupOutcome) (now0 : Micros) (laterNow : Nat → Micros)
    (T : Int) :
    deactTargets (cleanup_inactive_users sr fetch now0 laterNow T).2 = [] := by
  apply List.filterMap_eq_nil_iff.mpr
  intro e he
  rcases sr with e0 | users
  · rw [cleanup_error_eq] at he
    rcases List.mem_singleton.mp he with rfl
    rfl
  · rw [cleanup_ok_eq] at he
    rcases List.mem_cons.mp he with rfl | he1
    · rfl
    rcases List.mem_append.mp he1 with he2 | he2
    · rcases List.mem_append.mp he2 with he3 | he3
      · rcases classifyLoop_events_shape fetch _ laterNow 0 _ e he3 with
          ⟨n, rfl⟩ | ⟨n, rfl⟩ | ⟨n, t, rfl⟩ <;> rfl
      · rcases he3 with _ | ⟨_, _ | ⟨_, h3⟩⟩
        · rfl
        · rfl
        · rcases List.mem_singleton.mp h3 with rfl; rfl
    · rcases hemp : (classifyLoop fetch (now0 - T * microsPerDay) laterNow 0
          (users.filter (·.active))).1.isEmpty with _ | _
      · rw [hemp] at he2
        simp only [Bool.false_eq_true, if_false] at he2
        rcases List.mem_cons.mp he2 with rfl | he3
        · rfl
        · obtain ⟨r, _, rfl⟩ := List.mem_map.mp he3
          rfl
      · rw [hemp] at he2
        simp at he2

/-- No `main` run of this program ever deactivates anyone. -/
theorem deactTargets_mainRun (env : String → Option String)
    (sr : Except String (List UserAccount)) (fetch : String → LookupOutcome)
    (now0 : Micros) (laterNow : Nat → Micros) :
    deactTargets (mainRun env sr fetch now0 laterNow).events = [] := by
  by_cases hurl : pyTruthy (env "JIRA_URL")
  · by_cases hpat : pyTruthy (env "JIRA_PAT")
    · rcases sr with e | users
      · rw [mainRun_valid_error env e fetch now0 laterNow hurl hpat]
        rfl
      · rw [mainRun_valid_ok env users fetch now0 laterNow hurl hpat]
        exact deactTargets_cleanup (.ok users) fetch now0 laterNow 60
    · rw [mainRun_missing env sr fetch now0 laterNow
        (.inr (Bool.not_eq_true _ ▸ hpat))]
      rfl
  · rw [mainRun_missing env sr fetch now0 laterNow
      (.inl (Bool.not_eq_true _ ▸ hurl))]
    rfl

theorem detailLines_cons (e : LogEvent) (l : List LogEvent) :
    detailLines (e :: l) = detailLines [e] ++ detailLines l := by
  rw [← List.singleton_append, detailLines_append]

theorem sortInactive_nil : sortInactive [] = [] := rfl

/-- The detail lines of a successful run's log are exactly the sorted
records, in sorted order. -/
theorem detailLines_cleanup_ok (users : List UserAccount)
    (fetch : String → LookupOutcome) (now0 : Micros) (laterNow : Nat → Micros)
    (T : Int) :
    detailLines (cleanup_inactive_users (.ok users) fetch now0 laterNow T).2 =
      (sortInactive (classifyLoop fetch (now0 - T * microsPerDay) laterNow 0
          (users.filter (·.active))).1).map
        (fun r => .detailLine r.username r.last_login r.days_inactive) := by
  rw [cleanup_ok_eq]
  rw [detailLines_cons, detailLines_append, detailLines_append,
    detailLines_classifyLoop]
  have hmap : ∀ recs2 : List InactivityRecord,
      detailLines (recs2.map fun r =>
        LogEvent.detailLine r.username r.last_login r.days_inactive) =
        recs2.map fun r =>
          LogEvent.detailLine r.username r.last_login r.days_inactive := by
    intro recs2
    apply List.filter_eq_self.mpr
    intro e he
    obtain ⟨r, _, rfl⟩ := List.mem_map.mp he
    rfl
  rcases hemp : (classifyLoop fetch (now0 - T * microsPerDay) laterNow 0
      (users.filter (·.active))).1.isEmpty with _ | _
  · simp only [Bool.false_eq_true, if_false]
    rw [detailLines_cons LogEvent.detailHeader, hmap]
    rfl
  · rw [List.isEmpty_iff.mp hemp, sortInactive_nil]
    rfl

theorem undeterminedWarnings_cons (e : LogEvent) (l : List LogEvent) :
    undeterminedWarnings (e :: l) =
      undeterminedWarnings [e] + undeterminedWarnings l := by
  rw [← List.singleton_append, undeterminedWarnings_append]

/-- The sorted detail lines carry no undetermined warnings. -/
theorem undeterminedWarnings_map_detailLine (recs : List InactivityRecord) :
    undeterminedWarnings (recs.map fun r =>
      LogEvent.detailLine r.username r.last_login r.days_inactive) = 0 := by
  unfold undeterminedWarnings
  rw [List.filter_eq_nil_iff.mpr ?_]
  · rfl
  · intro e he
    obtain ⟨r, _, rfl⟩ := List.mem_map.mp he
    simp

/-- The undetermined warnings of a successful run count exactly the
active users whose last login could not be determined. -/
theorem undeterminedWarnings_cleanup_ok (users : List UserAccount)
    (fetch : String → LookupOutcome) (now0 : Micros) (laterNow : Nat → Micros)
    (T : Int) :
    undeterminedWarnings
        (cleanup_inactive_users (.ok users) fetch now0 laterNow T).2 =
      ((users.filter (·.active)).filter fun u =>
        ((get_user_last_login u.name (fetch u.name)).1).isNone).length := by
  rw [cleanup_ok_eq, undeterminedWarnings_cons, undeterminedWarnings_append,
    undeterminedWarnings_append, undeterminedWarnings_classifyLoop]
  have hdetail : undeterminedWarnings
      (if (classifyLoop fetch (now0 - T * microsPerDay) laterNow 0
          (users.filter (·.active))).1.isEmpty then ([] : List LogEvent)
       else .detailHeader :: (sortInactive (classifyLoop fetch
          (now0 - T * microsPerDay) laterNow 0
          (users.filter (·.active))).1).map
          fun r => .detailLine r.username r.last_login r.days_inactive) = 0 := by
    rcases hemp : (classifyLoop fetch (now0 - T * microsPerDay) laterNow 0
        (users.filter (·.active))).1.isEmpty with _ | _
    · simp only [Bool.false_eq_true, if_false]
      rw [undeterminedWarnings_cons, undeterminedWarnings_map_detailLine]
      rfl
    · rfl
  rw [hdetail]
  have h1 : ∀ n, undeterminedWarnings [LogEvent.foundActiveUsers n] = 0 :=
    fun n => rfl
  have h2 : ∀ a b, undeterminedWarnings [LogEvent.summaryHeader,
      LogEvent.totalChecked a, LogEvent.totalInactive b] = 0 := fun a b => rfl
  rw [h1, h2]
  omega

/-- Core classification characterization: an active user with distinct
name and a known last login gets an inactivity record exactly when that
login is strictly before the cutoff. -/
theorem classify_iff_core (users : List UserAccount)
    (fetch : String → LookupOutcome) (now0 : Micros) (laterNow : Nat → Micros)
    (T : Int) (u : UserAccount) (L : Micros)
    (hu : u ∈ users) (hact : u.active = true)
    (hnd : (users.map (·.name)).Nodup)
    (hL : (get_user_last_login u.name (fetch u.name)).1 = some L) :
    (∃ r ∈ (classifyLoop fetch (now0 - T * microsPerDay) laterNow 0
        (users.filter (·.active))).1, r.username = u.name) ↔
      L < now0 - T * microsPerDay := by
  have hu2 : u ∈ users.filter (·.active) := List.mem_filter.mpr ⟨hu, hact⟩
  have hnd2 : ((users.filter (·.active)).map (·.name)).Nodup :=
    ((List.filter_sublist users).map (·.name)).nodup hnd
  constructor
  · rintro ⟨r, hr, hname⟩
    obtain ⟨j, hj, h1, h2, h3, _⟩ :=
      mem_classifyLoop_fst fetch _ laterNow 0 _ r hr
    have hju : ((users.filter (·.active)).get ⟨j, hj⟩) = u :=
      eq_of_name_eq _ _ _ hnd2 (List.get_mem _ j hj) hu2 (by rw [← h1, hname])
    rw [hju] at h2
    rw [hL] at h2
    rw [Option.some.injEq] at h2
    rw [h2]
    exact h3
  · intro hlt
    obtain ⟨r, hr, hname⟩ :=
      classifyLoop_mem_of_lt fetch _ laterNow 0 _ u L hu2 hL hlt
    exact ⟨r, hr, hname⟩

/-- C1: for every cutoff threshold T ≥ 0 and every active user with known
last-login L, the user is classified inactive (contributes a record to
the run's inactive set) if and only if L is strictly earlier than now
minus T days; a user whose last login equals the cutoff exactly is not
classified inactive. -/
theorem C1_inactive_iff_strictly_before_cutoff (users : List UserAccount)
    (fetch : String → LookupOutcome) (now0 : Micros) (laterNow : Nat → Micros)
    (T : Int) (u : UserAccount) (L : Micros) (recs : List InactivityRecord)
    (evs : List LogEvent)
    (hT : 0 ≤ T) (hu : u ∈ users) (hact : u.active = true)
    (hnd : (users.map (·.name)).Nodup)
    (hL : (get_user_last_login u.name (fetch u.name)).1 = some L)
    (hrun : cleanup_inactive_users (.ok users) fetch now0 laterNow T =
      (.ok recs, evs)) :
    ((∃ r ∈ recs, r.username = u.name) ↔ L < now0 - T * microsPerDay) ∧
    (L = now0 - T * microsPerDay → ∀ r ∈ recs, r.username ≠ u.name) := by
  have hrecs : recs = (classifyLoop fetch (now0 - T * microsPerDay) laterNow 0
      (users.filter (·.active))).1 := by
    rw [cleanup_ok_eq] at hrun
    exact (Except.ok.inj (congrArg Prod.fst hrun)).symm
  subst hrecs
  have hiff := classify_iff_core users fetch now0 laterNow T u L hu hact hnd hL
  refine ⟨hiff, ?_⟩
  intro heq r hr hname
  have hlt := hiff.mp ⟨r, hr, hname⟩
  rw [heq] at hlt
  exact lt_irrefl _ hlt

/-- Witness for C1: in the reference run (threshold 60), user A with a
login 10 days old is not classified inactive, matching the strict-cutoff
characterization instantiated concretely. -/
theorem C1_witness :
    ((∃ r ∈ sampleRecords, r.username = "A") ↔
      sampleLoginA < sampleNow - 60 * microsPerDay) ∧
    (sampleLoginA = sampleNow - 60 * microsPerDay →
      ∀ r ∈ sampleRecords, r.username ≠ "A") :=
  C1_inactive_iff_strictly_before_cutoff sampleUsers sampleFetch sampleNow
    (fun _ => sampleNow) 60 ⟨"A", true⟩ sampleLoginA sampleRecords sampleEvents
    (by decide) (by decide) rfl (by decide) (by decide) (by decide)

/-- C2: users whose last login is unknown are never included in the
inactive set, are never touched by any (spec-modelled) deactivation batch
over the run's records, and the reference main flow deactivates nobody at
all. -/
theorem C2_unknown_never_inactive_nor_deactivated (users : List UserAccount)
    (fetch : String → LookupOutcome) (now0 : Micros) (laterNow : Nat → Micros)
    (T : Int) (n : String) (env : String → Option String)
    (deact : String → DeactivateOutcome) (recs : List InactivityRecord)
    (evs : List LogEvent)
    (hrun : cleanup_inactive_users (.ok users) fetch now0 laterNow T =
      (.ok recs, evs))
    (hunknown : ∀ u ∈ users, u.name = n →
      (get_user_last_login u.name (fetch u.name)).1 = none) :
    (∀ r ∈ recs, r.username ≠ n) ∧
    n ∉ deactTargets (deactivateMode deact recs).2 ∧
    deactTargets (mainRun env (.ok users) fetch now0 laterNow).events = [] := by
  have hrecs : recs = (classifyLoop fetch (now0 - T * microsPerDay) laterNow 0
      (users.filter (·.active))).1 := by
    rw [cleanup_ok_eq] at hrun
    exact (Except.ok.inj (congrArg Prod.fst hrun)).symm
  have hnotin : ∀ r ∈ recs, r.username ≠ n := by
    subst hrecs
    exact classifyLoop_unknown_not_mem fetch _ laterNow 0 _ n
      (fun u hu hname => hunknown u (List.mem_filter.mp hu).1 hname)
  refine ⟨hnotin, ?_, deactTargets_mainRun env (.ok users) fetch now0 laterNow⟩
  rw [deactTargets_deactivateMode]
  intro hmem
  obtain ⟨r, hr, heq⟩ := List.mem_map.mp hmem
  exact hnotin r hr heq

/-- Witness for C2: in the reference run, user C (no recorded login) is
absent from the inactive set and from any deactivation over its records,
and the main flow deactivates nobody. -/
theorem C2_witness :
    (∀ r ∈ sampleRecords, r.username ≠ "C") ∧
    "C" ∉ deactTargets (deactivateMode batchDeact sampleRecords).2 ∧
    deactTargets (mainRun envBoth (.ok sampleUsers) sampleFetch sampleNow
      (fun _ => sampleNow)).events = [] :=
  C2_unknown_never_inactive_nor_deactivated sampleUsers sampleFetch sampleNow
    (fun _ => sampleNow) 60 "C" envBoth batchDeact sampleRecords sampleEvents
    (by decide) (by decide)

/-- C3: a failure of the per-user last-login lookup — a raised query or a
`lastLoginTime` string that does not parse in the expected ISO-8601
format — makes `get_user_last_login` return unknown instead of raising;
the undetermined user is logged at warning level, the run still completes
with a successful result, and every other user is classified by its own
data exactly as usual. -/
theorem C3_lookup_failure_degrades_gracefully (username s msg : String)
    (hs : strptime s = none) (hne : s ≠ "")
    (users : List UserAccount) (fetch : String → LookupOutcome)
    (now0 : Micros) (laterNow : Nat → Micros) (T : Int)
    (failUser : UserAccount)
    (hfu : failUser ∈ users) (hfact : failUser.active = true)
    (hfail : ∀ u ∈ users, u.name = failUser.name →
      (get_user_last_login u.name (fetch u.name)).1 = none)
    (hnd : (users.map (·.name)).Nodup) :
    (get_user_last_login username (.queryError msg)).1 = none ∧
    (get_user_last_login username (.found (some s))).1 = none ∧
    (LogEvent.couldNotDetermine failUser.name).level = .warning ∧
    ∃ recs evs,
      cleanup_inactive_users (.ok users) fetch now0 laterNow T =
        (.ok recs, evs) ∧
      LogEvent.couldNotDetermine failUser.name ∈ evs ∧
      (∀ u L, u ∈ users → u.active = true → u.name ≠ failUser.name →
        (get_user_last_login u.name (fetch u.name)).1 = some L →
        ((∃ r ∈ recs, r.username = u.name) ↔ L < now0 - T * microsPerDay)) := by
  refine ⟨rfl, ?_, rfl, ?_⟩
  · simp [get_user_last_login, hne, hs]
  · refine ⟨_, _, cleanup_ok_eq users fetch now0 laterNow T, ?_, ?_⟩
    · apply List.mem_cons_of_mem
      apply List.mem_append.mpr
      apply Or.inl
      apply List.mem_append.mpr
      apply Or.inl
      exact couldNotDetermine_mem_classifyLoop fetch _ laterNow 0 _ failUser
        (List.mem_filter.mpr ⟨hfu, hfact⟩) (hfail failUser hfu rfl)
    · intro u L hu hact hname hL
      exact classify_iff_core users fetch now0 laterNow T u L hu hact hnd hL

/-- Witness for C3: user F's lookup raises while A and B succeed; F is
warned about, the run completes, and A and B are classified normally. -/
theorem C3_witness :
    (get_user_last_login "X" (.queryError "boom")).1 = none ∧
    (get_user_last_login "X" (.found (some "not-a-date"))).1 = none ∧
    (LogEvent.couldNotDetermine "F").level = .warning ∧
    ∃ recs evs,
      cleanup_inactive_users (.ok triFailUsers) triFailFetch sampleNow
        (fun _ => sampleNow) 60 = (.ok recs, evs) ∧
      LogEvent.couldNotDetermine "F" ∈ evs ∧
      (∀ u L, u ∈ triFailUsers → u.active = true → u.name ≠ "F" →
        (get_user_last_login u.name (triFailFetch u.name)).1 = some L →
        ((∃ r ∈ recs, r.username = u.name) ↔
          L < sampleNow - 60 * microsPerDay)) :=
  C3_lookup_failure_degrades_gracefully "X" "not-a-date" "boom" (by decide)
    (by decide) triFailUsers triFailFetch sampleNow (fun _ => sampleNow) 60
    ⟨"F", true⟩ (by decide) rfl (by decide) (by decide)

/-- C4: if the list-active-users query fails, the error propagates out of
`cleanup_inactive_users`, `main` logs only the listing error and the
top-level error, and the run produces no report lines, no summary counts
and no deactivation. -/
theorem C4_listing_failure_aborts_run (e : String)
    (fetch : String → LookupOutcome) (now0 : Micros) (laterNow : Nat → Micros)
    (T : Int) (env : String → Option String)
    (hurl : pyTruthy (env "JIRA_URL") = true)
    (hpat : pyTruthy (env "JIRA_PAT") = true) :
    cleanup_inactive_users (.error e) fetch now0 laterNow T =
      (.error e, [.listingError e]) ∧
    mainRun env (.error e) fetch now0 laterNow =
      ⟨[.listingError e, .mainError e], 2⟩ ∧
    detailLines [LogEvent.listingError e, LogEvent.mainError e] = [] ∧
    reportedCounts [LogEvent.listingError e, LogEvent.mainError e] = [] ∧
    deactTargets [LogEvent.listingError e, LogEvent.mainError e] = [] :=
  ⟨cleanup_error_eq e fetch now0 laterNow T,
   mainRun_valid_error env e fetch now0 laterNow hurl hpat, rfl, rfl, rfl⟩

/-- Witness for C4 at a concrete failing listing with valid
configuration. -/
theorem C4_witness :
    cleanup_inactive_users (.error "ConnectionError") sampleFetch sampleNow
      (fun _ => sampleNow) 60 =
      (.error "ConnectionError", [.listingError "ConnectionError"]) ∧
    mainRun envBoth (.error "ConnectionError") sampleFetch sampleNow
      (fun _ => sampleNow) =
      ⟨[.listingError "ConnectionError", .mainError "ConnectionError"], 2⟩ ∧
    detailLines [LogEvent.listingError "ConnectionError",
      LogEvent.mainError "ConnectionError"] = [] ∧
    reportedCounts [LogEvent.listingError "ConnectionError",
      LogEvent.mainError "ConnectionError"] = [] ∧
    deactTargets [LogEvent.listingError "ConnectionError",
      LogEvent.mainError "ConnectionError"] = [] :=
  C4_listing_failure_aborts_run "ConnectionError" sampleFetch sampleNow
    (fun _ => sampleNow) 60 envBoth (by decide) (by decide)

/-- C5: the final report lists inactive records sorted by `days_inactive`
descending; records with equal `days_inactive` keep the classification
order, which follows the fetched user list (the produced usernames form a
sublist of the listed names); the logged detail lines are exactly the
sorted records. -/
theorem C5_report_sorted_desc_stable (users : List UserAccount)
    (fetch : String → LookupOutcome) (now0 : Micros) (laterNow : Nat → Micros)
    (T : Int) (recs : List InactivityRecord) (evs : List LogEvent)
    (hrun : cleanup_inactive_users (.ok users) fetch now0 laterNow T =
      (.ok recs, evs)) :
    (sortInactive recs).Pairwise
      (fun a b => b.days_inactive ≤ a.days_inactive) ∧
    (∀ d : Int, (sortInactive recs).filter
        (fun r => decide (r.days_inactive = d)) =
      recs.filter (fun r => decide (r.days_inactive = d))) ∧
    (sortInactive recs).Perm recs ∧
    List.Sublist (recs.map (·.username))
      ((users.filter (·.active)).map (·.name)) ∧
    detailLines evs = (sortInactive recs).map
      (fun r => .detailLine r.username r.last_login r.days_inactive) := by
  have hrecs : recs = (classifyLoop fetch (now0 - T * microsPerDay) laterNow 0
      (users.filter (·.active))).1 := by
    rw [cleanup_ok_eq] at hrun
    exact (Except.ok.inj (congrArg Prod.fst hrun)).symm
  have hevs : evs =
      (cleanup_inactive_users (.ok users) fetch now0 laterNow T).2 := by
    rw [hrun]
  refine ⟨sortInactive_sorted recs, fun d => sortInactive_filter_eq recs d,
    sortInactive_perm recs, ?_, ?_⟩
  · rw [hrecs]
    exact classifyLoop_usernames_sublist fetch _ laterNow 0 _
  · rw [hevs, detailLines_cleanup_ok, ← hrecs]

/-- Witness for C5 at the reference run. -/
theorem C5_witness :
    (sortInactive sampleRecords).Pairwise
      (fun a b => b.days_inactive ≤ a.days_inactive) ∧
    (∀ d : Int, (sortInactive sampleRecords).filter
        (fun r => decide (r.days_inactive = d)) =
      sampleRecords.filter (fun r => decide (r.days_inactive = d))) ∧
    (sortInactive sampleRecords).Perm sampleRecords ∧
    List.Sublist (sampleRecords.map (·.username))
      ((sampleUsers.filter (·.active)).map (·.name)) ∧
    detailLines sampleEvents = (sortInactive sampleRecords).map
      (fun r => .detailLine r.username r.last_login r.days_inactive) :=
  C5_report_sorted_desc_stable sampleUsers sampleFetch sampleNow
    (fun _ => sampleNow) 60 sampleRecords sampleEvents (by decide)

/-- C6 counterexample: a run missing only the URL and a run missing only
the token produce identical output, so the logged error cannot identify
which configuration value is missing (it names both regardless). -/
theorem C6_counterexample :
    mainRun envPatOnly (.ok sampleUsers) sampleFetch sampleNow
        (fun _ => sampleNow) =
      mainRun envUrlOnly (.ok sampleUsers) sampleFetch sampleNow
        (fun _ => sampleNow) ∧
    envPatOnly "JIRA_URL" = none ∧
    envPatOnly "JIRA_PAT" = some "token123" ∧
    envUrlOnly "JIRA_URL" = some "https://jira.example.com" ∧
    envUrlOnly "JIRA_PAT" = none ∧
    mainRun envPatOnly (.ok sampleUsers) sampleFetch sampleNow
      (fun _ => sampleNow) = ⟨[.missingConfig], 0⟩ :=
  ⟨rfl, rfl, rfl, rfl, rfl, rfl⟩

/-- C6 (amended): a missing (unset or empty) service URL or token aborts
the run before any remote call with the fixed error-level message naming
the required variables `JIRA_URL` and `JIRA_PAT`; the message is the same
whichever value is missing, so it does not identify which one. -/
theorem C6_missing_config_aborts_before_network (env : String → Option String)
    (sr : Except String (List UserAccount)) (fetch : String → LookupOutcome)
    (now0 : Micros) (laterNow : Nat → Micros)
    (h : pyTruthy (env "JIRA_URL") = false ∨
      pyTruthy (env "JIRA_PAT") = false) :
    mainRun env sr fetch now0 laterNow = ⟨[.missingConfig], 0⟩ ∧
    (mainRun env sr fetch now0 laterNow).remoteCalls = 0 ∧
    LogEvent.level .missingConfig = .error :=
  ⟨mainRun_missing env sr fetch now0 laterNow h,
   by rw [mainRun_missing env sr fetch now0 laterNow h], rfl⟩

/-- Witness for the amended C6 with the URL unset. -/
theorem C6_witness :
    mainRun envPatOnly (.error "never-called") sampleFetch sampleNow
      (fun _ => sampleNow) = ⟨[.missingConfig], 0⟩ ∧
    (mainRun envPatOnly (.error "never-called") sampleFetch sampleNow
      (fun _ => sampleNow)).remoteCalls = 0 ∧
    LogEvent.level .missingConfig = .error :=
  C6_missing_config_aborts_before_network envPatOnly (.error "never-called")
    sampleFetch sampleNow (fun _ => sampleNow) (.inl (by decide))

/-- C7: every emitted record's `days_inactive` is (now − lastLogin)
truncated to whole days, where `now` is the clock read made for that
record; with a single clock read it is `timedeltaDays (now0 − lastLogin)`,
and the record's last login is the parsed lookup result of a listed
active user bearing its name. -/
theorem C7_days_inactive_whole_days (users : List UserAccount)
    (fetch : String → LookupOutcome) (now0 : Micros) (laterNow : Nat → Micros)
    (T : Int) (recs : List InactivityRecord) (evs : List LogEvent)
    (hrun : cleanup_inactive_users (.ok users) fetch now0 laterNow T =
      (.ok recs, evs))
    (hclock : ∀ i, laterNow i = now0) :
    ∀ r ∈ recs, r.days_inactive = timedeltaDays (now0 - r.last_login) ∧
      ∃ u ∈ users.filter (·.active), r.username = u.name ∧
        (get_user_last_login u.name (fetch u.name)).1 = some r.last_login := by
  have hrecs : recs = (classifyLoop fetch (now0 - T * microsPerDay) laterNow 0
      (users.filter (·.active))).1 := by
    rw [cleanup_ok_eq] at hrun
    exact (Except.ok.inj (congrArg Prod.fst hrun)).symm
  subst hrecs
  intro r hr
  obtain ⟨j, hj, h1, h2, _, h4⟩ :=
    mem_classifyLoop_fst fetch _ laterNow 0 _ r hr
  rw [hclock] at h4
  exact ⟨h4, (users.filter (·.active)).get ⟨j, hj⟩,
    List.get_mem _ j hj, h1, h2⟩

/-- Witness for C7: user B, whose login is 90 days old, is reported with
`days_inactive = 90` at threshold 60. -/
theorem C7_witness :
    ((⟨"B", sampleLoginB, 90⟩ : InactivityRecord).days_inactive =
      timedeltaDays (sampleNow -
        (⟨"B", sampleLoginB, 90⟩ : InactivityRecord).last_login) ∧
     ∃ u ∈ sampleUsers.filter (·.active),
       (⟨"B", sampleLoginB, 90⟩ : InactivityRecord).username = u.name ∧
       (get_user_last_login u.name (sampleFetch u.name)).1 =
         some (⟨"B", sampleLoginB, 90⟩ : InactivityRecord).last_login) ∧
    timedeltaDays (sampleNow - sampleLoginB) = 90 :=
  ⟨C7_days_inactive_whole_days sampleUsers sampleFetch sampleNow
     (fun _ => sampleNow) 60 sampleRecords sampleEvents (by decide)
     (fun _ => rfl) ⟨"B", sampleLoginB, 90⟩ (by decide),
   by decide⟩

/-- C8: in deactivate mode (the batch loop is modelled from the spec over
the source `deactivate_user`), `deactivate_user` is invoked once per
record in order — failures are logged and the batch continues — and the
final count equals the number of calls that succeeded, not the number
attempted. -/
theorem C8_deactivation_count_successes (deact : String → DeactivateOutcome)
    (recs : List InactivityRecord) :
    (deactivateMode deact recs).1 =
      (recs.filter fun r =>
        (deactivate_user r.username (deact r.username)).1).length ∧
    deactTargets (deactivateMode deact recs).2 = recs.map (·.username) ∧
    (∀ r ∈ recs, (deactivate_user r.username (deact r.username)).1 = false →
      LogEvent.deactivateError r.username ∈ (deactivateMode deact recs).2) :=
  ⟨deactivateMode_count deact recs, deactTargets_deactivateMode deact recs,
   deactivateMode_failure_logged deact recs⟩

/-- Witness for C8: of three records, the middle call fails; the count is
2, all three records are attempted in order, and the failure is logged. -/
theorem C8_witness :
    (deactivateMode batchDeact batchRecords).1 = 2 ∧
    deactTargets (deactivateMode batchDeact batchRecords).2 =
      ["x", "y", "z"] ∧
    LogEvent.deactivateError "y" ∈ (deactivateMode batchDeact batchRecords).2 := by
  have h := C8_deactivation_count_successes batchDeact batchRecords
  exact ⟨h.1.trans (by decide), h.2.1.trans (by decide),
    h.2.2 ⟨"y", 0, 90⟩ (by decide) (by decide)⟩

/-- C9 counterexample: in a run with two undetermined users, two per-user
warnings are logged, but the only aggregate counts the output ever
reports are the active-user count and the two summary totals — here 4, 4
and 1 — and the undetermined count 2 appears among none of them: no
separate undetermined count is reported. -/
theorem C9_counterexample :
    undeterminedWarnings quadEvents = 2 ∧
    reportedCounts quadEvents = [4, 4, 1] ∧
    (2 : Nat) ∉ reportedCounts quadEvents :=
  ⟨by decide, by decide, by decide⟩

/-- C9 (amended): users with unknown last login are excluded from the
inactive set; each one is individually logged with a warning (so the
undetermined count is recoverable as the number of such warnings), but no
aggregate undetermined count appears in the summary. -/
theorem C9_unknown_excluded_and_individually_warned (users : List UserAccount)
    (fetch : String → LookupOutcome) (now0 : Micros) (laterNow : Nat → Micros)
    (T : Int) (n : String) (recs : List InactivityRecord) (evs : List LogEvent)
    (hrun : cleanup_inactive_users (.ok users) fetch now0 laterNow T =
      (.ok recs, evs))
    (hunknown : ∀ u ∈ users, u.name = n →
      (get_user_last_login u.name (fetch u.name)).1 = none) :
    (∀ r ∈ recs, r.username ≠ n) ∧
    undeterminedWarnings evs =
      ((users.filter (·.active)).filter fun u =>
        ((get_user_last_login u.name (fetch u.name)).1).isNone).length := by
  have hrecs : recs = (classifyLoop fetch (now0 - T * microsPerDay) laterNow 0
      (users.filter (·.active))).1 := by
    rw [cleanup_ok_eq] at hrun
    exact (Except.ok.inj (congrArg Prod.fst hrun)).symm
  have hevs : evs =
      (cleanup_inactive_users (.ok users) fetch now0 laterNow T).2 := by
    rw [hrun]
  constructor
  · subst hrecs
    exact classifyLoop_unknown_not_mem fetch _ laterNow 0 _ n
      (fun u hu hname => hunknown u (List.mem_filter.mp hu).1 hname)
  · rw [hevs, undeterminedWarnings_cleanup_ok]

/-- Witness for the amended C9 at the two-undetermined-users run. -/
theorem C9_witness :
    (∀ r ∈ [quadRecord], r.username ≠ "u1") ∧
    undeterminedWarnings quadEvents =
      ((quadUsers.filter (·.active)).filter fun u =>
        ((get_user_last_login u.name (quadFetch u.name)).1).isNone).length :=
  C9_unknown_excluded_and_individually_warned quadUsers quadFetch sampleNow
    (fun _ => sampleNow) 60 "u1" [quadRecord] quadEvents (by decide)
    (by decide)

/-- C10: with a nonnegative threshold and every record-time clock read at
or after the cutoff computation, every record in the final report
satisfies `days_inactive ≥ days_threshold`. -/
theorem C10_reported_days_at_least_threshold (users : List UserAccount)
    (fetch : String → LookupOutcome) (now0 : Micros) (laterNow : Nat → Micros)
    (T : Int) (recs : List InactivityRecord) (evs : List LogEvent)
    (hrun : cleanup_inactive_users (.ok users) fetch now0 laterNow T =
      (.ok recs, evs))
    (hT : 0 ≤ T) (hclock : ∀ i, now0 ≤ laterNow i) :
    ∀ r ∈ recs, T ≤ r.days_inactive := by
  have hrecs : recs = (classifyLoop fetch (now0 - T * microsPerDay) laterNow 0
      (users.filter (·.active))).1 := by
    rw [cleanup_ok_eq] at hrun
    exact (Except.ok.inj (congrArg Prod.fst hrun)).symm
  subst hrecs
  intro r hr
  obtain ⟨j, hj, _, _, h3, h4⟩ :=
    mem_classifyLoop_fst fetch _ laterNow 0 _ r hr
  rw [h4]
  exact days_ge_of_lt_cutoff T r.last_login now0 (laterNow (0 + j)) h3
    (hclock (0 + j))

/-- Witness for C10: the reference run's single record has 90 days of
inactivity, at least the threshold 60. -/
theorem C10_witness :
    (60 : Int) ≤ (⟨"B", sampleLoginB, 90⟩ : InactivityRecord).days_inactive :=
  C10_reported_days_at_least_threshold sampleUsers sampleFetch sampleNow
    (fun _ => sampleNow) 60 sampleRecords sampleEvents (by decide) (by decide)
    (fun _ => le_refl _) ⟨"B", sampleLoginB, 90⟩ (by decide)

end JiraUserCleanup
